import Mathlib

set_option linter.unusedVariables false

namespace SvcExtnCache

/-!
Shallow embedding of the `pkg/cache` subsystem of the go-svc-extn repository:
the serialization strategies (`DefaultSerDe`, `JSONSerDe`, `ProtoSerDe`), the
remote Valkey-backed engine, the local Ristretto-backed engine, and the
`NewCache` facade.  Machine integers are `Nat`/`Int` with explicit range
conditions; fallible Go code returns `Option`; Go panics are explicit
constructors of result types.
-/

/-! ## Decimal formatting and parsing

Models of `fmt.Sprintf("%v", ·)` on integers and of `strconv.ParseInt` /
`strconv.ParseUint` / `strconv.ParseBool`, exactly as `DefaultSerDe` in
`remote_cache_valkey.go` uses them.
-/

/-- The ASCII digit character for a digit value `d < 10`. -/
def digitChar (d : Nat) : Char := Char.ofNat (48 + d)

/-- The digit value of an ASCII digit character. -/
def charDigit (c : Char) : Nat := c.toNat - 48

/-- Fuel-driven little-endian decimal digits of `n` (fuel-based so that the
kernel can evaluate it). -/
def littleDigitsAux : Nat → Nat → List Nat
  | 0, _ => []
  | fuel + 1, n => if n = 0 then [] else n % 10 :: littleDigitsAux fuel (n / 10)

/-- Little-endian decimal digits of `n` (empty for `0`). -/
def littleDigits (n : Nat) : List Nat := littleDigitsAux n n

/-- Value of a little-endian decimal digit list. -/
def fromDigits : List Nat → Nat
  | [] => 0
  | d :: ds => d + 10 * fromDigits ds

/-- Go `fmt.Sprintf("%v", n)` for an unsigned decimal integer:
most significant digit first, and `0` prints as `"0"`. -/
def goFormatNat (n : Nat) : List Char :=
  if n = 0 then ['0'] else ((littleDigits n).map digitChar).reverse

/-- Go `fmt.Sprintf("%v", i)` for a signed decimal integer. -/
def goFormatInt (i : Int) : List Char :=
  if i < 0 then '-' :: goFormatNat i.natAbs else goFormatNat i.toNat

/-- Parse an unsigned run of decimal digits (no sign); `none` when empty or
when a non-digit occurs, as in `strconv`'s digit scanner. -/
def parseDigits (l : List Char) : Option Nat :=
  if l ≠ [] ∧ l.all Char.isDigit = true then
    some (fromDigits (l.reverse.map charDigit))
  else none

/-- Go `strconv.ParseUint(s, 10, 64)`: digits only (no sign), value below
`2^64`; `none` models a returned error. -/
def goParseUint64 (s : List Char) : Option Nat :=
  match parseDigits s with
  | some n => if n < 2 ^ 64 then some n else none
  | none => none

/-- Go `strconv.ParseInt(s, 10, 64)`: optional leading sign, digits, value in
`[-2^63, 2^63)`; `none` models a returned error. -/
def goParseInt64 (s : List Char) : Option Int :=
  match s with
  | [] => none
  | c :: rest =>
    if c = '-' then
      match parseDigits rest with
      | some n => if n ≤ 2 ^ 63 then some (-(n : Int)) else none
      | none => none
    else if c = '+' then
      match parseDigits rest with
      | some n => if n < 2 ^ 63 then some (n : Int) else none
      | none => none
    else
      match parseDigits (c :: rest) with
      | some n => if n < 2 ^ 63 then some (n : Int) else none
      | none => none

/-- Go `strconv.ParseBool`: accepts `1,t,T,TRUE,true,True` and
`0,f,F,FALSE,false,False`. -/
def goParseBool (s : List Char) : Option Bool :=
  if s = ['1'] ∨ s = ['t'] ∨ s = ['T'] ∨ s = ['T', 'R', 'U', 'E'] ∨
      s = ['t', 'r', 'u', 'e'] ∨ s = ['T', 'r', 'u', 'e'] then
    some true
  else if s = ['0'] ∨ s = ['f'] ∨ s = ['F'] ∨ s = ['F', 'A', 'L', 'S', 'E'] ∨
      s = ['f', 'a', 'l', 's', 'e'] ∨ s = ['F', 'a', 'l', 's', 'e'] then
    some false
  else none

theorem littleDigitsAux_zero (g : Nat) : littleDigitsAux g 0 = [] := by
  cases g <;> simp [littleDigitsAux]

theorem littleDigitsAux_congr :
    ∀ (f : Nat) (g n : Nat), n ≤ f → n ≤ g →
      littleDigitsAux f n = littleDigitsAux g n := by
  intro f
  induction f with
  | zero =>
    intro g n hf hg
    have hn : n = 0 := Nat.le_zero.mp hf
    subst hn
    rw [littleDigitsAux_zero, littleDigitsAux_zero]
  | succ f ih =>
    intro g n hf hg
    by_cases h0 : n = 0
    · subst h0
      rw [littleDigitsAux_zero, littleDigitsAux_zero]
    · cases g with
      | zero => exact absurd (Nat.le_zero.mp hg) h0
      | succ g =>
        have hdiv : n / 10 < n := Nat.div_lt_self (Nat.pos_of_ne_zero h0) (by norm_num)
        simp only [littleDigitsAux, h0, if_false]
        exact congrArg _ (ih g (n / 10) (by omega) (by omega))

theorem littleDigits_eq (n : Nat) (h : n ≠ 0) :
    littleDigits n = n % 10 :: littleDigits (n / 10) := by
  unfold littleDigits
  cases n with
  | zero => exact absurd rfl h
  | succ m =>
    simp only [littleDigitsAux, Nat.succ_ne_zero, if_false]
    have hdiv : (m + 1) / 10 < m + 1 := Nat.div_lt_self (Nat.succ_pos m) (by norm_num)
    exact congrArg _ (littleDigitsAux_congr m ((m + 1) / 10) ((m + 1) / 10) (by omega) le_rfl)

theorem fromDigits_littleDigits (n : Nat) : fromDigits (littleDigits n) = n := by
  induction n using Nat.strong_induction_on with
  | _ n ih =>
    by_cases h : n = 0
    · subst h; rfl
    · rw [littleDigits_eq n h]
      have hdiv : n / 10 < n := Nat.div_lt_self (Nat.pos_of_ne_zero h) (by norm_num)
      simp only [fromDigits, ih (n / 10) hdiv]
      omega

theorem littleDigits_lt_ten (n : Nat) : ∀ d ∈ littleDigits n, d < 10 := by
  induction n using Nat.strong_induction_on with
  | _ n ih =>
    by_cases h : n = 0
    · subst h
      intro d hd
      simp [littleDigits, littleDigitsAux] at hd
    · rw [littleDigits_eq n h]
      intro d hd
      rcases List.mem_cons.mp hd with h1 | h2
      · subst h1; exact Nat.mod_lt n (by norm_num)
      · exact ih (n / 10) (Nat.div_lt_self (Nat.pos_of_ne_zero h) (by norm_num)) d h2

theorem littleDigits_ne_nil (n : Nat) (h : n ≠ 0) : littleDigits n ≠ [] := by
  rw [littleDigits_eq n h]
  exact List.cons_ne_nil _ _

theorem charDigit_digitChar : ∀ d, d < 10 → charDigit (digitChar d) = d := by decide

theorem digitChar_isDigit : ∀ d, d < 10 → (digitChar d).isDigit = true := by decide

theorem goFormatNat_all_digits (n : Nat) :
    ∀ c ∈ goFormatNat n, c.isDigit = true := by
  intro c hc
  unfold goFormatNat at hc
  by_cases h : n = 0
  · simp [h] at hc
    subst hc; decide
  · simp only [h, if_false, List.mem_reverse, List.mem_map] at hc
    obtain ⟨d, hd, rfl⟩ := hc
    exact digitChar_isDigit d (littleDigits_lt_ten n d hd)

theorem goFormatNat_ne_nil (n : Nat) : goFormatNat n ≠ [] := by
  unfold goFormatNat
  by_cases h : n = 0
  · simp [h]
  · simp only [h, if_false, ne_eq, List.reverse_eq_nil_iff, List.map_eq_nil_iff]
    exact littleDigits_ne_nil n h

theorem parseDigits_goFormatNat (n : Nat) : parseDigits (goFormatNat n) = some n := by
  by_cases h : n = 0
  · subst h; decide
  · unfold parseDigits
    rw [if_pos ⟨goFormatNat_ne_nil n, List.all_eq_true.mpr (goFormatNat_all_digits n)⟩]
    unfold goFormatNat
    simp only [h, if_false, List.reverse_reverse, List.map_map]
    have hmap : (littleDigits n).map (charDigit ∘ digitChar) = littleDigits n := by
      rw [List.map_congr_left (g := id), List.map_id]
      intro d hd
      exact charDigit_digitChar d (littleDigits_lt_ten n d hd)
    rw [hmap, fromDigits_littleDigits]

theorem goParseUint64_goFormatNat (n : Nat) (h : n < 2 ^ 64) :
    goParseUint64 (goFormatNat n) = some n := by
  unfold goParseUint64
  rw [parseDigits_goFormatNat]
  show (if n < 2 ^ 64 then some n else none) = some n
  rw [if_pos h]

theorem isDigit_ne_minus (c : Char) (h : c.isDigit = true) : ¬(c = '-') := by
  intro he
  subst he
  exact absurd h (by decide)

theorem isDigit_ne_plus (c : Char) (h : c.isDigit = true) : ¬(c = '+') := by
  intro he
  subst he
  exact absurd h (by decide)

theorem goParseInt64_goFormatInt (i : Int) (h1 : -(2 ^ 63) ≤ i) (h2 : i < 2 ^ 63) :
    goParseInt64 (goFormatInt i) = some i := by
  by_cases hneg : i < 0
  · unfold goFormatInt
    rw [if_pos hneg]
    unfold goParseInt64
    simp only [if_pos rfl]
    rw [parseDigits_goFormatNat]
    have hle : i.natAbs ≤ 2 ^ 63 := by omega
    simp only [hle, if_true]
    congr 1
    omega
  · unfold goFormatInt
    rw [if_neg hneg]
    obtain ⟨c, rest, hcr⟩ : ∃ c rest, goFormatNat i.toNat = c :: rest := by
      cases hgf : goFormatNat i.toNat with
      | nil => exact absurd hgf (goFormatNat_ne_nil _)
      | cons c rest => exact ⟨c, rest, rfl⟩
    have hcd : c.isDigit = true :=
      goFormatNat_all_digits i.toNat c (hcr ▸ List.mem_cons_self c rest)
    rw [hcr]
    simp only [goParseInt64]
    rw [if_neg (isDigit_ne_minus c hcd), if_neg (isDigit_ne_plus c hcd), ← hcr,
      parseDigits_goFormatNat]
    have hlt : i.toNat < 2 ^ 63 := by omega
    simp only [hlt, if_true]
    congr 1
    omega

/-! ## The Go value universe served by `DefaultSerDe`

`DefaultSerDe[T]` in `remote_cache_valkey.go` dispatches on the dynamic type
of the value (`Serialize`) and on `reflect.TypeOf(zero).Kind()`
(`Deserialize`).  We model the universe of possible instantiations `T` as a
kind tag plus a payload: the scalar kinds carry concrete payloads, while the
two float kinds and the composite (struct/map/slice) kinds carry payloads of
abstract parameter types `F32`, `F64`, `C` — the behavior of
`fmt`/`strconv`/`encoding/json` on those is supplied as function parameters
(the external libraries' contracts), never assumed implicitly.
-/

/-- Width tag for Go's signed integer family. -/
inductive IntW where
  | i | i8 | i16 | i32 | i64
deriving DecidableEq, Repr

/-- Width tag for Go's unsigned integer family. -/
inductive UIntW where
  | u | u8 | u16 | u32 | u64
deriving DecidableEq, Repr

/-- A Go value of one of the types `DefaultSerDe` distinguishes. -/
inductive GoVal (F32 F64 C : Type) where
  | str (s : List Char)
  | int (w : IntW) (v : Int)
  | uint (w : UIntW) (v : Nat)
  | f32 (x : F32)
  | f64 (x : F64)
  | bool (b : Bool)
  | comp (c : C)
deriving DecidableEq

/-- The reflect kind of a Go type, as `DefaultSerDe.Deserialize` switches on it
(`comp` stands for every kind that falls through to the JSON fallback). -/
inductive GoKind where
  | str
  | int (w : IntW)
  | uint (w : UIntW)
  | f32 | f64
  | bool
  | comp
deriving DecidableEq, Repr

/-- The Go type (reflect kind) of a value. -/
def GoVal.kind {F32 F64 C : Type} : GoVal F32 F64 C → GoKind
  | .str _ => .str
  | .int w _ => .int w
  | .uint w _ => .uint w
  | .f32 _ => .f32
  | .f64 _ => .f64
  | .bool _ => .bool
  | .comp _ => .comp

/-- The width-dependent range condition under which an `Int`/`Nat` payload is a
value of its Go integer type (64-bit platform: `int`/`uint` are 64 bits wide). -/
def GoVal.inRange {F32 F64 C : Type} : GoVal F32 F64 C → Bool
  | .int .i8 v => -(2 ^ 7) ≤ v ∧ v < 2 ^ 7
  | .int .i16 v => -(2 ^ 15) ≤ v ∧ v < 2 ^ 15
  | .int .i32 v => -(2 ^ 31) ≤ v ∧ v < 2 ^ 31
  | .int _ v => -(2 ^ 63) ≤ v ∧ v < 2 ^ 63
  | .uint .u8 v => v < 2 ^ 8
  | .uint .u16 v => v < 2 ^ 16
  | .uint .u32 v => v < 2 ^ 32
  | .uint _ v => v < 2 ^ 64
  | _ => true

/-- `DefaultSerDe.Serialize` (remote_cache_valkey.go): strings as raw bytes,
integers and floats via `fmt.Sprintf("%v", v)`, booleans as `"true"`/`"false"`,
everything else through `json.Marshal`.  `fmt32`/`fmt64` model `%v` on the two
float widths and `jsonMarshal` models `json.Marshal` at the composite type. -/
def defaultSerialize {F32 F64 C : Type} (fmt32 : F32 → List Char)
    (fmt64 : F64 → List Char) (jsonMarshal : C → List Char) :
    GoVal F32 F64 C → List Char
  | .str s => s
  | .int _ v => goFormatInt v
  | .uint _ v => goFormatNat v
  | .f32 x => fmt32 x
  | .f64 x => fmt64 x
  | .bool b => if b then ['t', 'r', 'u', 'e'] else ['f', 'a', 'l', 's', 'e']
  | .comp c => jsonMarshal c

/-- Outcome of `DefaultSerDe.Deserialize`.  `panicked` is the run-time panic of
the unchecked type assertion `any(val).(T)`; `fallback` marks the final
`json.Unmarshal(data, &zero)` call at a scalar target type (reached only when
the strconv parse failed); `jsonErr` is an error returned by the JSON fallback
at the composite type. -/
inductive DeserRes (F32 F64 C : Type) where
  | ok (v : GoVal F32 F64 C)
  | panicked
  | fallback (data : List Char)
  | jsonErr
deriving DecidableEq

/-- `DefaultSerDe.Deserialize` (remote_cache_valkey.go): switches on
`reflect.TypeOf(zero).Kind()`.  Every signed kind parses with
`strconv.ParseInt(s, 10, 64)` and then asserts the resulting `int64` to `T`
with the unchecked `any(val).(T)` — which panics unless `T` is exactly
`int64`; dually for the unsigned kinds with `uint64` and for `float32` with
the `float64` produced by `strconv.ParseFloat(s, 64)`.  `parse64` models
`strconv.ParseFloat(·, 64)` and `jsonUnmarshal` models `json.Unmarshal` at
the composite type. -/
def defaultDeserialize {F32 F64 C : Type} (parse64 : List Char → Option F64)
    (jsonUnmarshal : List Char → Option C) (k : GoKind) (data : List Char) :
    DeserRes F32 F64 C :=
  match k with
  | .str => .ok (.str data)
  | .int w =>
    match goParseInt64 data with
    | some v => if w = .i64 then .ok (.int .i64 v) else .panicked
    | none => .fallback data
  | .uint w =>
    match goParseUint64 data with
    | some v => if w = .u64 then .ok (.uint .u64 v) else .panicked
    | none => .fallback data
  | .f32 => if (parse64 data).isSome then .panicked else .fallback data
  | .f64 =>
    match parse64 data with
    | some x => .ok (.f64 x)
    | none => .fallback data
  | .bool =>
    match goParseBool data with
    | some b => .ok (.bool b)
    | none => .fallback data
  | .comp =>
    match jsonUnmarshal data with
    | some c => .ok (.comp c)
    | none => .jsonErr

/-- A serializer strategy (`SerDe[T]` in cache.go), with `Option` for the
error return of both directions. -/
structure SerDe (T : Type) where
  serialize : T → Option (List Char)
  deserialize : List Char → Option T

/-- `JSONSerDe[T]` (cache.go): `Serialize` delegates to `json.Marshal` and
`Deserialize` to `json.Unmarshal`; the two library functions at type `T` are
the `enc`/`dec` arguments. -/
def JSONSerDe {T : Type} (enc : T → Option (List Char))
    (dec : List Char → Option T) : SerDe T :=
  { serialize := enc, deserialize := dec }

/-- `ProtoSerDe[T]` (cache.go): `Serialize` delegates to `proto.Marshal` and
`Deserialize` to `proto.Unmarshal`. -/
def ProtoSerDe {T : Type} (enc : T → Option (List Char))
    (dec : List Char → Option T) : SerDe T :=
  { serialize := enc, deserialize := dec }

theorem goParseBool_true_lit : goParseBool ['t', 'r', 'u', 'e'] = some true := by decide

theorem goParseBool_false_lit :
    goParseBool ['f', 'a', 'l', 's', 'e'] = some false := by decide

/-- Round trip of `DefaultSerDe` at target type `int64`. -/
theorem defaultDeserialize_i64 {F32 F64 C : Type} (parse64 : List Char → Option F64)
    (ju : List Char → Option C) (v : Int) (h1 : -(2 ^ 63) ≤ v) (h2 : v < 2 ^ 63) :
    @defaultDeserialize F32 F64 C parse64 ju (.int .i64) (goFormatInt v) =
      .ok (.int .i64 v) := by
  unfold defaultDeserialize
  rw [goParseInt64_goFormatInt v h1 h2]
  rfl

/-- `DefaultSerDe.Deserialize` panics at every signed target type other than
`int64`: `strconv.ParseInt` yields an `int64` and the unchecked assertion
`any(val).(T)` fails. -/
theorem defaultDeserialize_int_panics {F32 F64 C : Type}
    (parse64 : List Char → Option F64) (ju : List Char → Option C) (w : IntW)
    (hw : ¬(w = .i64)) (v : Int) (h1 : -(2 ^ 63) ≤ v) (h2 : v < 2 ^ 63) :
    @defaultDeserialize F32 F64 C parse64 ju (.int w) (goFormatInt v) =
      .panicked := by
  unfold defaultDeserialize
  rw [goParseInt64_goFormatInt v h1 h2]
  simp [hw]

theorem defaultDeserialize_u64 {F32 F64 C : Type} (parse64 : List Char → Option F64)
    (ju : List Char → Option C) (v : Nat) (h : v < 2 ^ 64) :
    @defaultDeserialize F32 F64 C parse64 ju (.uint .u64) (goFormatNat v) =
      .ok (.uint .u64 v) := by
  unfold defaultDeserialize
  rw [goParseUint64_goFormatNat v h]
  rfl

theorem defaultDeserialize_uint_panics {F32 F64 C : Type}
    (parse64 : List Char → Option F64) (ju : List Char → Option C) (w : UIntW)
    (hw : ¬(w = .u64)) (v : Nat) (h : v < 2 ^ 64) :
    @defaultDeserialize F32 F64 C parse64 ju (.uint w) (goFormatNat v) =
      .panicked := by
  unfold defaultDeserialize
  rw [goParseUint64_goFormatNat v h]
  simp [hw]

/-- Claim C1, as amended.  For every representable value:
the default serializer round-trips at the types `string`, `int64`, `uint64`,
`bool`, at `float64` under the strconv shortest-float contract, and at
composite types under the JSON library's round-trip contract; but at every
other scalar width (`int`, `int8`, `int16`, `int32`, `uint`, `uint8`,
`uint16`, `uint32`, `float32`) `Deserialize(Serialize(v))` panics on the
unchecked type assertion instead of returning `v`.  The JSON and
protocol-buffer serializers delegate directly to their libraries, so they
round-trip exactly on the values their library round-trips. -/
theorem C1_serde_roundtrip {F32 F64 C T U : Type}
    (fmt32 : F32 → List Char) (fmt64 : F64 → List Char)
    (jsonMarshal : C → List Char) (parse64 : List Char → Option F64)
    (jsonUnmarshal : List Char → Option C)
    (jenc : T → Option (List Char)) (jdec : List Char → Option T)
    (penc : U → Option (List Char)) (pdec : List Char → Option U)
    (h64 : ∀ x, parse64 (fmt64 x) = some x)
    (h32 : ∀ x, (parse64 (fmt32 x)).isSome = true)
    (hjson : ∀ c, jsonUnmarshal (jsonMarshal c) = some c)
    (hjlib : ∀ tv d, jenc tv = some d → jdec d = some tv)
    (hplib : ∀ uv d, penc uv = some d → pdec d = some uv) :
    (∀ s : List Char,
      @defaultDeserialize F32 F64 C parse64 jsonUnmarshal GoKind.str
        (defaultSerialize fmt32 fmt64 jsonMarshal (.str s)) = .ok (.str s)) ∧
    (∀ v : Int, -(2 ^ 63) ≤ v → v < 2 ^ 63 →
      @defaultDeserialize F32 F64 C parse64 jsonUnmarshal (.int .i64)
        (defaultSerialize fmt32 fmt64 jsonMarshal (.int .i64 v)) =
        .ok (.int .i64 v)) ∧
    (∀ v : Nat, v < 2 ^ 64 →
      @defaultDeserialize F32 F64 C parse64 jsonUnmarshal (.uint .u64)
        (defaultSerialize fmt32 fmt64 jsonMarshal (.uint .u64 v)) =
        .ok (.uint .u64 v)) ∧
    (∀ b : Bool,
      @defaultDeserialize F32 F64 C parse64 jsonUnmarshal GoKind.bool
        (defaultSerialize fmt32 fmt64 jsonMarshal (.bool b)) = .ok (.bool b)) ∧
    (∀ x : F64,
      @defaultDeserialize F32 F64 C parse64 jsonUnmarshal GoKind.f64
        (defaultSerialize fmt32 fmt64 jsonMarshal (.f64 x)) = .ok (.f64 x)) ∧
    (∀ c : C,
      @defaultDeserialize F32 F64 C parse64 jsonUnmarshal GoKind.comp
        (defaultSerialize fmt32 fmt64 jsonMarshal (.comp c)) = .ok (.comp c)) ∧
    (∀ (w : IntW) (v : Int), ¬(w = .i64) → -(2 ^ 63) ≤ v → v < 2 ^ 63 →
      @defaultDeserialize F32 F64 C parse64 jsonUnmarshal (.int w)
        (defaultSerialize fmt32 fmt64 jsonMarshal (.int w v)) = .panicked) ∧
    (∀ (w : UIntW) (v : Nat), ¬(w = .u64) → v < 2 ^ 64 →
      @defaultDeserialize F32 F64 C parse64 jsonUnmarshal (.uint w)
        (defaultSerialize fmt32 fmt64 jsonMarshal (.uint w v)) = .panicked) ∧
    (∀ x : F32,
      @defaultDeserialize F32 F64 C parse64 jsonUnmarshal GoKind.f32
        (defaultSerialize fmt32 fmt64 jsonMarshal (.f32 x)) = .panicked) ∧
    (∀ (tv : T) (d : List Char), (JSONSerDe jenc jdec).serialize tv = some d →
      (JSONSerDe jenc jdec).deserialize d = some tv) ∧
    (∀ (uv : U) (d : List Char), (ProtoSerDe penc pdec).serialize uv = some d →
      (ProtoSerDe penc pdec).deserialize d = some uv) := by
  refine ⟨fun s => rfl, ?_, ?_, ?_, ?_, ?_, ?_, ?_, ?_, hjlib, hplib⟩
  · intro v h1 h2
    exact defaultDeserialize_i64 parse64 jsonUnmarshal v h1 h2
  · intro v h
    exact defaultDeserialize_u64 parse64 jsonUnmarshal v h
  · intro b
    cases b
    · show defaultDeserialize parse64 jsonUnmarshal GoKind.bool ['f', 'a', 'l', 's', 'e'] = _
      unfold defaultDeserialize
      rw [goParseBool_false_lit]
    · show defaultDeserialize parse64 jsonUnmarshal GoKind.bool ['t', 'r', 'u', 'e'] = _
      unfold defaultDeserialize
      rw [goParseBool_true_lit]
  · intro x
    show defaultDeserialize parse64 jsonUnmarshal GoKind.f64 (fmt64 x) = _
    unfold defaultDeserialize
    rw [h64 x]
  · intro c
    show defaultDeserialize parse64 jsonUnmarshal GoKind.comp (jsonMarshal c) = _
    unfold defaultDeserialize
    rw [hjson c]
  · intro w v hw h1 h2
    exact defaultDeserialize_int_panics parse64 jsonUnmarshal w hw v h1 h2
  · intro w v hw h
    exact defaultDeserialize_uint_panics parse64 jsonUnmarshal w hw v h
  · intro x
    show defaultDeserialize parse64 jsonUnmarshal GoKind.f32 (fmt32 x) = _
    unfold defaultDeserialize
    rw [h32 x]
    rfl

/-- Concrete instantiation discharging every hypothesis of `C1_serde_roundtrip`
and evaluating two of its round trips at explicit inputs. -/
theorem C1_serde_roundtrip_witness :
    @defaultDeserialize Unit Unit Unit
        (fun _ => some ()) (fun _ => some ()) (.int .i64)
        (@defaultSerialize Unit Unit Unit (fun _ => ['0']) (fun _ => ['0'])
          (fun _ => []) (.int .i64 42)) = .ok (.int .i64 42) ∧
    @defaultDeserialize Unit Unit Unit
        (fun _ => some ()) (fun _ => some ()) (.int .i8)
        (@defaultSerialize Unit Unit Unit (fun _ => ['0']) (fun _ => ['0'])
          (fun _ => []) (.int .i8 5)) = .panicked := by
  have h := @C1_serde_roundtrip Unit Unit Unit Unit Unit
    (fun _ => ['0']) (fun _ => ['0']) (fun _ => []) (fun _ => some ())
    (fun _ => some ()) (fun _ => some []) (fun _ => some ())
    (fun _ => some []) (fun _ => some ())
    (fun x => rfl) (fun x => rfl) (fun c => rfl)
    (fun tv d _ => rfl) (fun uv d _ => rfl)
  exact ⟨h.2.1 42 (by decide) (by decide),
    h.2.2.2.2.2.2.1 .i8 5 (by decide) (by decide) (by decide)⟩

/-- Claim C1, counterexample to the original statement: for the value `5` of
the Go type `int` — a scalar of the integer family — the default serializer
produces `"5"`, and deserializing `"5"` at target type `int` panics on the
unchecked type assertion `any(int64).(int)` instead of succeeding with `5`. -/
theorem C1_serde_roundtrip_counterexample :
    @defaultSerialize Unit Unit Unit
        (fun _ => ['0']) (fun _ => ['0']) (fun _ => []) (.int .i 5) = ['5'] ∧
    @defaultDeserialize Unit Unit Unit
        (fun _ => some ()) (fun _ => some ()) (.int .i) ['5'] = .panicked ∧
    ¬(@defaultDeserialize Unit Unit Unit
        (fun _ => some ()) (fun _ => some ()) (.int .i) ['5'] =
        .ok (.int .i 5)) := by
  refine ⟨by decide, by decide, by decide⟩

/-! ## Cache facade and constructors (cache.go, remote_cache_valkey.go,
local_cache_risteretto.go) -/

/-- The two cache engines `NewCache` can build. -/
inductive Engine where
  | localRistretto
  | remoteValkey
deriving DecidableEq, Repr

/-- Engine dispatch of `NewCache` (cache.go): `if cacheCfg.Mode == "local"`
chooses the Ristretto engine, everything else falls to
`NewRemoteCacheValkey`. -/
def newCacheEngine (mode : String) : Engine :=
  if mode = "local" then .localRistretto else .remoteValkey

/-- A cleanup (`func()`) value returned by a constructor. -/
inductive Cleanup where
  | localClose
  | remoteNoop
deriving DecidableEq, Repr

/-- Outcome of a constructor call, a Go `(cache, error, func())` return where
a `none` cleanup is a nil `func()`; `panicked` is an un-recovered panic raised
during construction. -/
inductive CtorOutcome where
  | ok (cleanup : Option Cleanup)
  | err (cleanup : Option Cleanup)
  | panicked
deriving DecidableEq, Repr

/-- The process-wide `vkClientOnce`/`vkClient`/`vkClientErr` triple:
`none` before the once-initializer has fired, `some r` after it fired,
where `r = none` means the shared client was built and `r = some msg` records
the sticky `vkClientErr`. -/
abbrev OnceState := Option (Option String)

/-- `pre.isPrefixOf s` on the character lists, the model of Go
`strings.HasPrefix(s, pre)`. -/
def strStartsWith (s pre : String) : Bool := pre.toList.isPrefixOf s.toList

/-- Address normalization at the top of `NewRemoteCacheValkey`: prepend
`"redis://"` unless already present. -/
def normalizeAddr (addr : String) : String :=
  if strStartsWith addr "redis://" then addr else "redis://" ++ addr

/-- Environment of the remote constructor: the behavior of the external
valkey-go library calls it makes. -/
structure RemoteEnv where
  /-- Model of `valkey.MustParseURL`'s validity domain: `none` means the URL
  cannot be parsed, in which case the `Must` variant panics. -/
  parseURL : String → Option Unit
  /-- Error returned by `valkey.NewClient` when the once-initializer runs it
  (`none` = client built, e.g. `some msg` = server unreachable). -/
  newClientErr : Option String
  /-- Error returned by `valkeylock.NewLocker`. -/
  newLockerErr : Option String

/-- The topology switch at the top of `NewRemoteCacheValkey`: cluster and
sentinel modes call `valkey.MustParseURL` inside the `vkClientOnce.Do`
closure (so a fired once skips the parse), while the standalone default
parses before entering the once (so the parse always runs).  `.inr ()` is the
panic of `MustParseURL` on a malformed URL; `.inl r` is the resulting
`vkClientErr`. -/
def vkOnceStep (env : RemoteEnv) (once : OnceState) (mode addr1 : String) :
    Option String ⊕ Unit :=
  if mode = "cluster" ∨ mode = "sentinel" then
    match once with
    | some r => .inl r
    | none =>
      match env.parseURL addr1 with
      | none => .inr ()
      | some _ => .inl env.newClientErr
  else
    match env.parseURL addr1 with
    | none => .inr ()
    | some _ =>
      match once with
      | some r => .inl r
      | none => .inl env.newClientErr

/-- `NewRemoteCacheValkey` (remote_cache_valkey.go): normalizes the address,
runs the topology switch, then checks `vkClientErr`, fills in `DefaultSerDe`
when no serializer was provided (which cannot fail), builds the locker, and
returns.  Both error returns are `nil, err, nil`, i.e. with a nil cleanup;
the success cleanup is the empty closure that leaves the shared client
open. -/
def newRemoteCacheValkey (env : RemoteEnv) (once : OnceState)
    (mode addr : String) (serdeProvided : Bool) : CtorOutcome × OnceState :=
  match vkOnceStep env once mode (normalizeAddr addr) with
  | .inr _ => (.panicked, once)
  | .inl clientErr =>
    match clientErr with
    | some msg => (.err none, some (some msg))
    | none =>
      match env.newLockerErr with
      | some _ => (.err none, some none)
      | none => (.ok (some .remoteNoop), some none)

/-- `NewLocalCacheRistretto` (local_cache_risteretto.go): builds the Ristretto
store and returns a cleanup closing it; on a Ristretto construction error it
returns `nil, err, nil`. -/
def newLocalCacheRistretto (ristrettoErr : Bool) : CtorOutcome :=
  if ristrettoErr then .err none else .ok (some .localClose)

/-- `NewCache` (cache.go): dispatch on the mode, then the selected engine's
constructor. -/
def newCache (env : RemoteEnv) (once : OnceState) (ristrettoErr : Bool)
    (mode addr : String) (serdeProvided : Bool) : CtorOutcome × OnceState :=
  match newCacheEngine mode with
  | .localRistretto => (newLocalCacheRistretto ristrettoErr, once)
  | .remoteValkey => newRemoteCacheValkey env once mode addr serdeProvided

/-- Claim C2 (confirmed): `NewCache` selects the engine solely from the mode
field; `"local"` yields the Ristretto-backed local engine and every other
mode string yields the remote Valkey engine. -/
theorem C2_engine_selection :
    newCacheEngine "local" = .localRistretto ∧
    (∀ mode : String, ¬(mode = "local") → newCacheEngine mode = .remoteValkey) ∧
    (∀ env once ristrettoErr addr serdeProvided,
      (newCache env once ristrettoErr "local" addr serdeProvided).1 =
        newLocalCacheRistretto ristrettoErr) ∧
    (∀ env once ristrettoErr mode addr serdeProvided, ¬(mode = "local") →
      newCache env once ristrettoErr mode addr serdeProvided =
        newRemoteCacheValkey env once mode addr serdeProvided) := by
  refine ⟨rfl, ?_, fun env once re addr sp => rfl, ?_⟩
  · intro mode hm
    unfold newCacheEngine
    rw [if_neg hm]
  · intro env once re mode addr sp hm
    unfold newCache newCacheEngine
    rw [if_neg hm]

/-- Instances of `C2_engine_selection` at each mode string named by the
claim, discharging its hypotheses. -/
theorem C2_engine_selection_witness :
    newCacheEngine "local" = .localRistretto ∧
    newCacheEngine "remote" = .remoteValkey ∧
    newCacheEngine "cluster" = .remoteValkey ∧
    newCacheEngine "sentinel" = .remoteValkey ∧
    newCacheEngine "" = .remoteValkey ∧
    newCacheEngine "unrecognized" = .remoteValkey :=
  ⟨C2_engine_selection.1,
    C2_engine_selection.2.1 "remote" (by decide),
    C2_engine_selection.2.1 "cluster" (by decide),
    C2_engine_selection.2.1 "sentinel" (by decide),
    C2_engine_selection.2.1 "" (by decide),
    C2_engine_selection.2.1 "unrecognized" (by decide)⟩

/-- Model of `valkey.MustParseURL`'s validity domain used for concrete
instances, committed only to the single fact the counterexample needs:
`"redis://["`, an unterminated IPv6 host bracket, is not a parsable URL (Go's
url.Parse rejects it), so the `Must` variant panics on it; other inputs used
in this file parse fine. -/
def urlValidModel : String → Option Unit :=
  fun s => if s = "redis://[" then none else some ()

/-- Claim C3, as amended.  A malformed remote connection string makes
`NewCache` panic inside `valkey.MustParseURL` rather than return an error: in
standalone remote mode the parse always runs, and in cluster/sentinel mode it
runs whenever the shared client has not been initialized yet.  An unreachable
server (a `valkey.NewClient` error) and a locker-construction failure are
returned as synchronous errors.  Serializer configuration cannot fail
construction at all: a missing serializer is silently replaced by
`DefaultSerDe`, so the outcome never depends on it. -/
theorem C3_construction_errors (env : RemoteEnv) (once : OnceState)
    (mode addr : String) (serdeProvided : Bool) :
    (¬(mode = "local") → ¬(mode = "cluster") → ¬(mode = "sentinel") →
      env.parseURL (normalizeAddr addr) = none →
      (newCache env once false mode addr serdeProvided).1 = .panicked) ∧
    ((mode = "cluster" ∨ mode = "sentinel") → once = none →
      env.parseURL (normalizeAddr addr) = none →
      (newCache env once false mode addr serdeProvided).1 = .panicked) ∧
    (∀ msg : String, ¬(mode = "local") →
      env.parseURL (normalizeAddr addr) = some () → once = none →
      env.newClientErr = some msg →
      (newCache env once false mode addr serdeProvided).1 = .err none) ∧
    (∀ msg : String, ¬(mode = "local") →
      env.parseURL (normalizeAddr addr) = some () → once = none →
      env.newClientErr = none → env.newLockerErr = some msg →
      (newCache env once false mode addr serdeProvided).1 = .err none) ∧
    ((newCache env once false mode addr true).1 =
      (newCache env once false mode addr false).1) := by
  refine ⟨?_, ?_, ?_, ?_, rfl⟩
  · intro hl hc hs hp
    unfold newCache newCacheEngine
    rw [if_neg hl]
    unfold newRemoteCacheValkey vkOnceStep
    rw [if_neg (by simp [hc, hs]), hp]
  · intro hcs ho hp
    have hl : ¬(mode = "local") := by
      rcases hcs with h | h <;> simp [h]
    unfold newCache newCacheEngine
    rw [if_neg hl]
    unfold newRemoteCacheValkey vkOnceStep
    rw [if_pos hcs, ho, hp]
  · intro msg hl hp ho hc
    unfold newCache newCacheEngine
    rw [if_neg hl]
    unfold newRemoteCacheValkey vkOnceStep
    by_cases hcs : mode = "cluster" ∨ mode = "sentinel"
    · rw [if_pos hcs, ho, hp, hc]
    · rw [if_neg hcs, hp, ho, hc]
  · intro msg hl hp ho hc hk
    unfold newCache newCacheEngine
    rw [if_neg hl]
    unfold newRemoteCacheValkey vkOnceStep
    by_cases hcs : mode = "cluster" ∨ mode = "sentinel"
    · rw [if_pos hcs, ho, hp, hc, hk]
    · rw [if_neg hcs, hp, ho, hc, hk]

/-- Instances of `C3_construction_errors` with every hypothesis discharged at
concrete inputs: a malformed standalone address panics, and an unreachable
server yields a synchronous error return. -/
theorem C3_construction_errors_witness :
    (newCache ⟨urlValidModel, none, none⟩ none false "remote" "redis://["
      true).1 = .panicked ∧
    (newCache ⟨urlValidModel, some "connection refused", none⟩ none false
      "remote" "localhost:6379" true).1 = .err none :=
  ⟨(C3_construction_errors ⟨urlValidModel, none, none⟩ none "remote"
      "redis://[" true).1 (by decide) (by decide) (by decide) (by decide),
    (C3_construction_errors ⟨urlValidModel, some "connection refused", none⟩
      none "remote" "localhost:6379" true).2.2.1 "connection refused"
      (by decide) (by decide) rfl rfl⟩

/-- Claim C3, counterexample to the original statement: constructing a cache
in remote mode with the malformed connection string `"redis://["` does not
return an error — `valkey.MustParseURL` panics. -/
theorem C3_construction_errors_counterexample :
    (newCache ⟨urlValidModel, none, none⟩ none false "remote" "redis://["
      true).1 = .panicked ∧
    (∀ cl, ¬((newCache ⟨urlValidModel, none, none⟩ none false "remote"
      "redis://[" true).1 = .err cl)) := by
  constructor
  · decide
  · intro cl h
    rw [show (newCache ⟨urlValidModel, none, none⟩ none false "remote"
      "redis://[" true).1 = .panicked from by decide] at h
    exact CtorOutcome.noConfusion h

/-- A Ristretto cache handle with its `isClosed` flag; `S` is the snapshot of
the in-memory store the handle owns. -/
structure RistrettoHandle (S : Type) where
  store : S
  closed : Bool
deriving DecidableEq

/-- `ristretto.Cache.Close` (external library, modelled from its source):
guarded by `isClosed`, it clears the store, stops the background goroutines
and marks the handle closed; calling it on a closed handle is a no-op. -/
def ristrettoClose {S : Type} (empty : S) (h : RistrettoHandle S) :
    RistrettoHandle S :=
  if h.closed then h else { store := empty, closed := true }

/-- Result of invoking a Go function value that may be nil: calling a nil
`func()` panics. -/
inductive CallRes (A : Type) where
  | ret (a : A)
  | nilPanic
deriving DecidableEq

/-- Invoke a cleanup value returned by `NewCache` on the process state: the
local cleanup closes the Ristretto handle, the remote cleanup has an empty
body, and a nil cleanup panics when called. -/
def callCleanup {S : Type} (empty : S) (f : Option Cleanup)
    (h : RistrettoHandle S) : CallRes (RistrettoHandle S) :=
  match f with
  | none => .nilPanic
  | some .localClose => .ret (ristrettoClose empty h)
  | some .remoteNoop => .ret h

theorem ristrettoClose_idem {S : Type} (empty : S) (h : RistrettoHandle S) :
    ristrettoClose empty (ristrettoClose empty h) = ristrettoClose empty h := by
  unfold ristrettoClose
  by_cases hc : h.closed = true
  · rw [if_pos hc, if_pos hc]
  · rw [if_neg hc]
    simp

/-- Every outcome of `newCache` is an `ok` carrying one of the two real
cleanups, an error return carrying a nil cleanup, or a panic. -/
theorem newCache_outcome_shapes (env : RemoteEnv) (once : OnceState)
    (ristrettoErr : Bool) (mode addr : String) (serdeProvided : Bool) :
    (newCache env once ristrettoErr mode addr serdeProvided).1 =
        .ok (some .localClose) ∨
    (newCache env once ristrettoErr mode addr serdeProvided).1 =
        .ok (some .remoteNoop) ∨
    (newCache env once ristrettoErr mode addr serdeProvided).1 = .err none ∨
    (newCache env once ristrettoErr mode addr serdeProvided).1 = .panicked := by
  unfold newCache newCacheEngine
  by_cases hm : mode = "local"
  · rw [if_pos hm]
    unfold newLocalCacheRistretto
    by_cases hr : ristrettoErr = true
    · rw [if_pos hr]; right; right; left; rfl
    · rw [if_neg hr]; left; rfl
  · rw [if_neg hm]
    unfold newRemoteCacheValkey
    rcases vkOnceStep env once mode (normalizeAddr addr) with r | u
    · rcases r with _ | msg
      · rcases env.newLockerErr with _ | msg2
        · right; left; rfl
        · right; right; left; rfl
      · right; right; left; rfl
    · right; right; right; rfl

/-- Claim C4, as amended.  When construction succeeds, the returned
releaseFn is a real (non-nil) function and is idempotent — re-invoking it
returns the same teardown state, the local one through Ristretto's
`isClosed`-guarded `Close` and the remote one because its body is empty.
When construction returns an error, however, `NewCache` returns a nil
releaseFn, and invoking it panics (a nil Go function call), so it is not
safe to call or defer unconditionally. -/
theorem C4_release_safety {S : Type} (empty : S) (env : RemoteEnv)
    (once : OnceState) (ristrettoErr : Bool) (mode addr : String)
    (serdeProvided : Bool) :
    (∀ cl, (newCache env once ristrettoErr mode addr serdeProvided).1 = .ok cl →
      cl = some .localClose ∨ cl = some .remoteNoop) ∧
    (∀ (c : Cleanup) (h h1 : RistrettoHandle S),
      callCleanup empty (some c) h = .ret h1 →
      callCleanup empty (some c) h1 = .ret h1) ∧
    (∀ cl, (newCache env once ristrettoErr mode addr serdeProvided).1 = .err cl →
      cl = none) ∧
    (∀ h : RistrettoHandle S, callCleanup empty none h = .nilPanic) := by
  refine ⟨?_, ?_, ?_, fun h => rfl⟩
  · intro cl hcl
    rcases newCache_outcome_shapes env once ristrettoErr mode addr serdeProvided
      with h | h | h | h <;> rw [h] at hcl
    · exact Or.inl (CtorOutcome.ok.inj hcl).symm
    · exact Or.inr (CtorOutcome.ok.inj hcl).symm
    · exact absurd hcl (by intro hx; exact CtorOutcome.noConfusion hx)
    · exact absurd hcl (by intro hx; exact CtorOutcome.noConfusion hx)
  · intro c h h1 hcall
    cases c
    · have : h1 = ristrettoClose empty h := (CallRes.ret.inj hcall).symm
      subst this
      unfold callCleanup
      rw [ristrettoClose_idem]
    · have : h1 = h := (CallRes.ret.inj hcall).symm
      subst this
      rfl
  · intro cl hcl
    rcases newCache_outcome_shapes env once ristrettoErr mode addr serdeProvided
      with h | h | h | h <;> rw [h] at hcl
    · exact absurd hcl (by intro hx; exact CtorOutcome.noConfusion hx)
    · exact absurd hcl (by intro hx; exact CtorOutcome.noConfusion hx)
    · exact (CtorOutcome.err.inj hcl).symm
    · exact absurd hcl (by intro hx; exact CtorOutcome.noConfusion hx)

/-- Instances of `C4_release_safety` with its hypotheses discharged at
concrete inputs: a successful local construction returns the Ristretto-close
cleanup, re-running the close is idempotent, and the error return carries a
nil cleanup that panics if invoked. -/
theorem C4_release_safety_witness :
    (Option.some Cleanup.localClose = some .localClose ∨
      Option.some Cleanup.localClose = some .remoteNoop) ∧
    callCleanup () (some .localClose)
      (⟨(), true⟩ : RistrettoHandle Unit) = .ret ⟨(), true⟩ ∧
    (Option.none (α := Cleanup) = none) ∧
    callCleanup () none (⟨(), false⟩ : RistrettoHandle Unit) = .nilPanic :=
  ⟨(C4_release_safety () ⟨urlValidModel, none, none⟩ none false "local" ""
        true).1 (some .localClose) (by decide),
    (C4_release_safety () ⟨urlValidModel, none, none⟩ none false "local" ""
        true).2.1 .localClose ⟨(), false⟩ ⟨(), true⟩ (by decide),
    (C4_release_safety () ⟨urlValidModel, some "connection refused", none⟩
        none false "remote" "localhost:6379" true).2.2.1 none (by decide),
    (C4_release_safety () ⟨urlValidModel, none, none⟩ none false "local" ""
        true).2.2.2 ⟨(), false⟩⟩

/-- Claim C4, counterexample to the original statement: after the remote
construction fails (unreachable server), the returned releaseFn is nil, and
invoking it panics instead of being a harmless no-op. -/
theorem C4_release_safety_counterexample :
    (newCache ⟨urlValidModel, some "connection refused", none⟩ none false
      "remote" "localhost:6379" true).1 = .err none ∧
    callCleanup () none (⟨(), false⟩ : RistrettoHandle Unit) = .nilPanic ∧
    ¬(callCleanup () none (⟨(), false⟩ : RistrettoHandle Unit) =
      .ret ⟨(), false⟩) := by
  refine ⟨by decide, rfl, by decide⟩

/-! ## Association lists (shared store representation) -/

def alistLookup {A : Type} : List (String × A) → String → Option A
  | [], _ => none
  | p :: rest, k => if p.1 = k then some p.2 else alistLookup rest k

def alistErase {A : Type} : List (String × A) → String → List (String × A)
  | [], _ => []
  | p :: rest, k =>
    if p.1 = k then alistErase rest k else p :: alistErase rest k

def alistInsert {A : Type} (l : List (String × A)) (k : String) (a : A) :
    List (String × A) :=
  (k, a) :: alistErase l k

theorem alistLookup_insert_self {A : Type} (l : List (String × A)) (k : String)
    (a : A) : alistLookup (alistInsert l k a) k = some a := by
  unfold alistInsert alistLookup
  rw [if_pos rfl]

theorem alistLookup_erase_self {A : Type} (l : List (String × A)) (k : String) :
    alistLookup (alistErase l k) k = none := by
  induction l with
  | nil => rfl
  | cons p rest ih =>
    simp only [alistErase]
    by_cases h : p.1 = k
    · rw [if_pos h]; exact ih
    · rw [if_neg h]
      simp only [alistLookup]
      rw [if_neg h]
      exact ih

theorem alistLookup_erase_other {A : Type} (l : List (String × A)) (k k2 : String)
    (h : ¬(k2 = k)) : alistLookup (alistErase l k) k2 = alistLookup l k2 := by
  induction l with
  | nil => rfl
  | cons p rest ih =>
    simp only [alistErase, alistLookup]
    by_cases h1 : p.1 = k
    · rw [if_pos h1, if_neg (by rw [h1]; intro hx; exact h hx.symm)]
      exact ih
    · rw [if_neg h1]
      simp only [alistLookup]
      by_cases h2 : p.1 = k2
      · rw [if_pos h2, if_pos h2]
      · rw [if_neg h2, if_neg h2]
        exact ih

/-! ## Valkey server model

The remote engine delegates storage to an external Valkey server.  The state
and the semantics of the commands the engine issues (`GET`, `GETEX`, `SET`,
`DEL`, `HGET`, `HGETEX`) are modelled from the commands' documented
behavior: string keys and hash fields carry a byte-string value and an
optional absolute expiration; an expired entry is treated as absent.
-/

/-- A stored byte-string with an optional absolute expiration (in seconds). -/
structure VEntry where
  val : List Char
  exp : Option Nat
deriving DecidableEq

/-- Whether an entry is still alive at time `now`. -/
def VEntry.live (e : VEntry) (now : Nat) : Bool :=
  match e.exp with
  | none => true
  | some t => now < t

/-- Server state: the string keyspace and the hash keyspace (hash fields have
individual expirations, Valkey 9.0+).  Both live in the single shared
keyspace, so `DEL` counts and removes across both. -/
structure VState where
  kv : List (String × VEntry)
  hv : List (String × List (String × VEntry))
deriving DecidableEq

/-- `GET key`: the value when the key exists and is not expired. -/
def srvGet (st : VState) (now : Nat) (k : String) : Option (List Char) :=
  match alistLookup st.kv k with
  | some e => if e.live now then some e.val else none
  | none => none

/-- `GETEX key EX ttl`: `GET` plus atomically resetting the key's expiration
to `now + ttl` in the same command. -/
def srvGetex (st : VState) (now : Nat) (k : String) (ttl : Nat) :
    Option (List Char) × VState :=
  match alistLookup st.kv k with
  | some e =>
    if e.live now then
      (some e.val, { st with kv := alistInsert st.kv k ⟨e.val, some (now + ttl)⟩ })
    else (none, st)
  | none => (none, st)

/-- `SET key val [EX ttl]`: replace the entry (the key's previous content of
either type is discarded), expiring at `now + ttl` when a TTL is given. -/
def srvSet (st : VState) (now : Nat) (k : String) (v : List Char)
    (ttl : Option Nat) : VState :=
  { kv := alistInsert st.kv k ⟨v, ttl.map (now + ·)⟩, hv := alistErase st.hv k }

/-- Whether the server considers key `k` to exist at `now`: a live string
entry or a hash with at least one live field. -/
def VState.hasKey (st : VState) (now : Nat) (k : String) : Bool :=
  (match alistLookup st.kv k with
   | some e => e.live now
   | none => false) ||
  (match alistLookup st.hv k with
   | some fs => fs.any (fun p => p.2.live now)
   | none => false)

/-- `DEL k1 ... kn`: removes the keys left to right, returning how many of
them existed. -/
def srvDel : VState → Nat → List String → Nat × VState
  | st, _, [] => (0, st)
  | st, now, k :: rest =>
    let r := srvDel ⟨alistErase st.kv k, alistErase st.hv k⟩ now rest
    ((if st.hasKey now k then 1 else 0) + r.1, r.2)

/-- `HGET key field`. -/
def srvHget (st : VState) (now : Nat) (k f : String) : Option (List Char) :=
  match alistLookup st.hv k with
  | some fs =>
    match alistLookup fs f with
    | some e => if e.live now then some e.val else none
    | none => none
  | none => none

/-- `HGETEX key EX ttl FIELDS 1 field` (Valkey 9.0+): `HGET` plus atomically
resetting that field's individual expiration to `now + ttl`. -/
def srvHgetex (st : VState) (now : Nat) (k f : String) (ttl : Nat) :
    Option (List Char) × VState :=
  match alistLookup st.hv k with
  | some fs =>
    match alistLookup fs f with
    | some e =>
      if e.live now then
        (some e.val,
          { st with
            hv := alistInsert st.hv k (alistInsert fs f ⟨e.val, some (now + ttl)⟩) })
      else (none, st)
    | none => (none, st)
  | none => (none, st)

/-! ## Remote engine operations (remote_cache_valkey.go)

Each operation returns, along with its result and the server state after the
call, the list of wire commands it issued, so command-level properties (one
atomic `GETEX` instead of `GET` + `EXPIRE`; one `DEL` round trip; no command
for an empty batch) are visible in the embedding.
-/

/-- The wire commands the modelled operations issue. -/
inductive VCmd where
  | get (k : String)
  | getex (k : String) (ttl : Nat)
  | setCmd (k : String) (v : List Char) (ttl : Option Nat)
  | del (ks : List String)
  | hget (k f : String)
  | hgetex (k f : String) (ttl : Nat)
deriving DecidableEq

/-- A remote engine instance: the `name`/`ttl`/`applyTouch` fields of
`RemoteCacheValkey` (the serializer is passed per operation). -/
structure RemoteCache where
  name : String
  ttl : Nat
  applyTouch : Bool
deriving DecidableEq

/-- `makeKey`: the composite key `name + ":" + key`. -/
def RemoteCache.makeKey (c : RemoteCache) (key : String) : String :=
  c.name ++ ":" ++ key

/-- `RemoteCacheValkey.Get`: one `GET`, or — when `applyTouch` — one atomic
`GETEX ... EX ttl`; then the error check, the `val == ""` check, and
deserialization.  Every failure yields `(zero, false)`, here `none`. -/
def RemoteCache.get {T : Type} (deser : List Char → Option T) (c : RemoteCache)
    (st : VState) (now : Nat) (key : String) : Option T × VState × List VCmd :=
  let ck := c.makeKey key
  let r :=
    if c.applyTouch then
      let r1 := srvGetex st now ck c.ttl
      (r1.1, r1.2, [VCmd.getex ck c.ttl])
    else (srvGet st now ck, st, [VCmd.get ck])
  match r.1 with
  | none => (none, r.2)
  | some val =>
    if val = [] then (none, r.2)
    else
      match deser val with
      | some t => (some t, r.2)
      | none => (none, r.2)

/-- `RemoteCacheValkey.SetWithTTL`: serialize, then one `SET ... EX ttl`; a
serializer error is returned without issuing a command. -/
def RemoteCache.setWithTTL {T : Type} (ser : T → Option (List Char))
    (c : RemoteCache) (st : VState) (now : Nat) (key : String) (v : T)
    (ttl : Nat) : Bool × VState × List VCmd :=
  match ser v with
  | none => (false, st, [])
  | some data =>
    (true, srvSet st now (c.makeKey key) data (some ttl),
      [VCmd.setCmd (c.makeKey key) data (some ttl)])

/-- `RemoteCacheValkey.Set`: with a positive default TTL it delegates to
`SetWithTTL`; otherwise one `SET` with no expiration.  The `Bool` is `true`
when no error was returned. -/
def RemoteCache.set {T : Type} (ser : T → Option (List Char)) (c : RemoteCache)
    (st : VState) (now : Nat) (key : String) (v : T) :
    Bool × VState × List VCmd :=
  if c.ttl > 0 then c.setWithTTL ser st now key v c.ttl
  else
    match ser v with
    | none => (false, st, [])
    | some data =>
      (true, srvSet st now (c.makeKey key) data none,
        [VCmd.setCmd (c.makeKey key) data none])

/-- `RemoteCacheValkey.DeleteMulti`: an empty key list returns `0`
immediately with no command; otherwise every key is prefixed with the cache
name and a single multi-key `DEL` is issued, whose reply (the number of keys
that existed) is returned. -/
def RemoteCache.deleteMulti (c : RemoteCache) (st : VState) (now : Nat)
    (keys : List String) : Nat × VState × List VCmd :=
  match keys with
  | [] => (0, st, [])
  | _ =>
    let cks := keys.map c.makeKey
    let r := srvDel st now cks
    (r.1, r.2, [VCmd.del cks])

/-- `RemoteCacheValkey.HGet`: one `HGET`, or — when `applyTouch` — one atomic
`HGETEX ... EX ttl FIELDS 1 field`; the touch path also rejects an empty
first reply element. -/
def RemoteCache.hget {T : Type} (deser : List Char → Option T) (c : RemoteCache)
    (st : VState) (now : Nat) (key field : String) :
    Option T × VState × List VCmd :=
  let ck := c.makeKey key
  if c.applyTouch then
    let r1 := srvHgetex st now ck field c.ttl
    let tr := [VCmd.hgetex ck field c.ttl]
    match r1.1 with
    | none => (none, r1.2, tr)
    | some val =>
      if val = [] then (none, r1.2, tr)
      else
        match deser val with
        | some t => (some t, r1.2, tr)
        | none => (none, r1.2, tr)
  else
    let tr := [VCmd.hget ck field]
    match srvHget st now ck field with
    | none => (none, st, tr)
    | some val =>
      match deser val with
      | some t => (some t, st, tr)
      | none => (none, st, tr)

/-! ## Local Ristretto engine (local_cache_risteretto.go)

The backing store is `ristretto.Cache`, modelled from the library: `Set` and
`SetWithTTL` enqueue the write into the admission buffer (`setBuf`), so it
becomes visible only after the buffer is processed; `Del` removes the key
from the applied map immediately and also enqueues a delete so that it
cancels an in-flight set; `Get` reads the applied map, honoring expiry.
-/

/-- A value stored in the local cache, which stores `any`: a value of the
cache's value type `T`, the `"locked"` marker string written by
`LockWithContext`, or the `map[string]T` used to emulate hashes. -/
inductive LVal (T : Type) where
  | v (x : T)
  | lockMarker
  | hash (m : List (String × T))
deriving DecidableEq

/-- A stored local entry with its optional absolute expiration. -/
structure LEntry (T : Type) where
  val : LVal T
  exp : Option Nat
deriving DecidableEq

def LEntry.live {T : Type} (e : LEntry T) (now : Nat) : Bool :=
  match e.exp with
  | none => true
  | some t => now < t

/-- A pending admission-buffer operation. -/
inductive LOp (T : Type) where
  | setOp (k : String) (e : LEntry T)
  | delOp (k : String)
deriving DecidableEq

/-- The Ristretto store: the applied (visible) map plus the admission
buffer. -/
structure LState (T : Type) where
  applied : List (String × LEntry T)
  pending : List (LOp T)
deriving DecidableEq

/-- `ristretto.Cache.Get`: reads the applied map only (a buffered write is
not yet visible); an expired entry is a miss. -/
def lrGetRaw {T : Type} (st : LState T) (now : Nat) (k : String) :
    Option (LVal T) :=
  match alistLookup st.applied k with
  | some e => if e.live now then some e.val else none
  | none => none

/-- `ristretto.Cache.Set`/`SetWithTTL` with cost 1: enqueue the write; `ttl = 0`
means no expiration. -/
def lrSet {T : Type} (st : LState T) (now : Nat) (k : String) (v : LVal T)
    (ttl : Nat) : LState T :=
  { st with
    pending :=
      st.pending ++ [LOp.setOp k ⟨v, if ttl = 0 then none else some (now + ttl)⟩] }

/-- `ristretto.Cache.Del`: immediate removal from the applied map plus an
enqueued delete that cancels any in-flight set of the same key. -/
def lrDel {T : Type} (st : LState T) (k : String) : LState T :=
  { applied := alistErase st.applied k, pending := st.pending ++ [LOp.delOp k] }

def lrApplyOp {T : Type} (m : List (String × LEntry T)) (op : LOp T) :
    List (String × LEntry T) :=
  match op with
  | .setOp k e => alistInsert m k e
  | .delOp k => alistErase m k

/-- Process the whole admission buffer in order (the "settle delay" after
which buffered writes become visible). -/
def lrDrain {T : Type} (st : LState T) : LState T :=
  { applied := st.pending.foldl lrApplyOp st.applied, pending := [] }

/-- A local engine instance: the `ttl` field of `LocalCacheRistretto`
(DefaultTTL; 0 = no expiration). -/
structure LocalCache where
  ttl : Nat
deriving DecidableEq

/-- `LocalCacheRistretto.Get`: Ristretto `Get`, then the `v.(T)` type
assertion; a miss or a stored value that is not a `T` yields
`(zero, false)`. -/
def LocalCache.get {T : Type} (c : LocalCache) (st : LState T) (now : Nat)
    (k : String) : Option T :=
  match lrGetRaw st now k with
  | some (.v x) => some x
  | _ => none

/-- `LocalCacheRistretto.SetWithTTL`. -/
def LocalCache.setWithTTL {T : Type} (c : LocalCache) (st : LState T)
    (now : Nat) (k : String) (x : T) (ttl : Nat) : LState T :=
  lrSet st now k (.v x) ttl

/-- `LocalCacheRistretto.Set`: applies the default TTL when it is positive. -/
def LocalCache.set {T : Type} (c : LocalCache) (st : LState T) (now : Nat)
    (k : String) (x : T) : LState T :=
  if c.ttl > 0 then c.setWithTTL st now k x c.ttl else lrSet st now k (.v x) 0

/-- `LocalCacheRistretto.Expire`: Ristretto cannot mutate a TTL in place, so
the key is simply deleted, whatever `ttl` was requested. -/
def LocalCache.expire {T : Type} (c : LocalCache) (st : LState T) (k : String)
    (ttl : Nat) : LState T :=
  lrDel st k

/-- `LocalCacheRistretto.Delete`. -/
def LocalCache.delete {T : Type} (c : LocalCache) (st : LState T)
    (k : String) : LState T :=
  lrDel st k

/-- Result of the local lock operations: `ErrNotLocked`, or acquisition with
the store state after the lock write was enqueued. -/
inductive LockRes (T : Type) where
  | notLocked
  | acquired (st1 : LState T)
deriving DecidableEq

/-- `LocalCacheRistretto.LockWithContext`: a presence check via Ristretto
`Get` on the same unprefixed keyspace as the data, then
`SetWithTTL(key, "locked", 1, c.ttl)`; no mutex guards the check-then-set. -/
def LocalCache.lockWithContext {T : Type} (c : LocalCache) (st : LState T)
    (now : Nat) (k : String) : LockRes T :=
  match lrGetRaw st now k with
  | some _ => .notLocked
  | none => .acquired (lrSet st now k .lockMarker c.ttl)

/-- `LocalCacheRistretto.TryLockWithContext` simply delegates to
`LockWithContext`. -/
def LocalCache.tryLockWithContext {T : Type} (c : LocalCache) (st : LState T)
    (now : Nat) (k : String) : LockRes T :=
  c.lockWithContext st now k

/-- The wrapped cancel function returned on acquisition: it deletes the lock
key (and cancels the derived context). -/
def LocalCache.releaseLock {T : Type} (st : LState T) (k : String) : LState T :=
  lrDel st k

/-- Modelled from the spec: the local engine's `DeleteMulti` is required by
the `Cache[T]` interface and exercised by the repository's
`TestLocalCache_DeleteMulti`, but its implementation is not among the
provided sources.  Per the spec it deletes every listed key and "returns
count of keys actually removed (0 for already-absent keys); empty input
returns 0". -/
def LocalCache.deleteMulti {T : Type} (c : LocalCache) :
    LState T → Nat → List String → Nat × LState T
  | st, _, [] => (0, st)
  | st, now, k :: rest =>
    let found := (lrGetRaw st now k).isSome
    let r := c.deleteMulti (lrDel st k) now rest
    ((if found then 1 else 0) + r.1, r.2)

/-! ## Remote distributed lock (valkeylock + TryLockWithContext wrapper) -/

/-- `pre.isPrefixOf s`-based substring test on character lists, the model of
Go `strings.Contains`. -/
def containsSubChars : List Char → List Char → Bool
  | s, sub =>
    sub.isPrefixOf s ||
      match s with
      | [] => false
      | _ :: rest => containsSubChars rest sub

/-- Go `strings.Contains(s, sub)`. -/
def strContains (s sub : String) : Bool := containsSubChars s.toList sub.toList

/-- Modelled from the valkeylock library contract: the set of currently held
lock keys.  `TryWithContext` on a held key fails fast with the library error
`"not locked"`; on a free key it acquires it.  The cancel function returned
on acquisition releases the key. -/
def vlTry (ls : List String) (k : String) : Option String × List String :=
  if k ∈ ls then (some "not locked", ls) else (none, k :: ls)

/-- Release of a held valkeylock key (the returned cancel function). -/
def vlRelease (ls : List String) (k : String) : List String :=
  ls.filter (fun x => !(x = k))

/-- Result of `RemoteCacheValkey.TryLockWithContext`. -/
inductive RemoteTryRes where
  | acquired (ls1 : List String)
  | errNotLocked
  | errOther (msg : String)
deriving DecidableEq

/-- `RemoteCacheValkey.TryLockWithContext` (remote_cache_valkey.go): delegate
to `locker.TryWithContext` on the composite key; when the returned error
message contains `"not locked"`, wrap it in `ErrNotLocked`; pass other
errors through. -/
def RemoteCache.tryLockWithContext (c : RemoteCache) (ls : List String)
    (key : String) : RemoteTryRes :=
  match vlTry ls (c.makeKey key) with
  | (none, ls1) => .acquired ls1
  | (some msg, _) =>
    if strContains msg "not locked" then .errNotLocked else .errOther msg

/-! ## Claim theorems about the engines -/

/-- Claim C8 (confirmed): on the local engine, `Expire(key, ttl)` performs an
unconditional delete — no TTL mutation — so for every requested `ttl` and
every prior state a subsequent `Get(key)` reports `(zero value, false)`. -/
theorem C8_local_expire_is_delete {T : Type} (c : LocalCache) (st : LState T)
    (k : String) (ttl now : Nat) :
    LocalCache.expire c st k ttl = lrDel st k ∧
    LocalCache.get c (LocalCache.expire c st k ttl) now k = none := by
  refine ⟨rfl, ?_⟩
  have h : lrGetRaw (lrDel st k) now k = none := by
    unfold lrGetRaw lrDel
    rw [alistLookup_erase_self]
  unfold LocalCache.expire LocalCache.get
  rw [h]

/-- Whenever the byte string stored at the composite key is empty, the
remote `Get` reports not-found (the `val == ""` check), with or without
touch, live or expired. -/
theorem remoteGet_empty_val {T : Type} (deser : List Char → Option T)
    (c : RemoteCache) (st : VState) (now : Nat) (key : String) (e : VEntry)
    (hl : alistLookup st.kv (c.makeKey key) = some e) (hv : e.val = []) :
    (RemoteCache.get deser c st now key).1 = none := by
  unfold RemoteCache.get srvGet srvGetex
  by_cases ht : c.applyTouch = true
  · by_cases hlive : e.live now = true
    · simp [ht, hl, hlive, hv]
    · simp [ht, hl, hlive]
  · rw [Bool.not_eq_true] at ht
    by_cases hlive : e.live now = true
    · simp [ht, hl, hlive, hv]
    · simp [ht, hl, hlive]

/-- Claim C9 (confirmed): the remote `Get` returns `(zero value, false)`
whenever the stored byte string is empty, so for the empty Go string — whose
default serialization is the empty byte string — a successful `Set` followed
by `Get` reports not-found even though the entry exists on the server. -/
theorem C9_remote_empty_serialization_lost {F32 F64 C T : Type}
    (fmt32 : F32 → List Char) (fmt64 : F64 → List Char) (jm : C → List Char)
    (deser : List Char → Option T) (c : RemoteCache) (st : VState) (now : Nat)
    (key : String) :
    @defaultSerialize F32 F64 C fmt32 fmt64 jm (.str []) = [] ∧
    (RemoteCache.set (fun v => some (@defaultSerialize F32 F64 C fmt32 fmt64 jm v))
        c st now key (.str [])).1 = true ∧
    (∃ e : VEntry,
      alistLookup
        ((RemoteCache.set
            (fun v => some (@defaultSerialize F32 F64 C fmt32 fmt64 jm v))
            c st now key (.str [])).2.1).kv (c.makeKey key) = some e ∧
      e.val = []) ∧
    (RemoteCache.get deser c
        ((RemoteCache.set
            (fun v => some (@defaultSerialize F32 F64 C fmt32 fmt64 jm v))
            c st now key (.str [])).2.1) now key).1 = none := by
  have hser : @defaultSerialize F32 F64 C fmt32 fmt64 jm (.str []) = [] := rfl
  by_cases httl : c.ttl > 0
  · have hset : (RemoteCache.set
        (fun v => some (@defaultSerialize F32 F64 C fmt32 fmt64 jm v))
        c st now key (.str [])) =
        (true, srvSet st now (c.makeKey key) [] (some c.ttl),
          [VCmd.setCmd (c.makeKey key) [] (some c.ttl)]) := by
      unfold RemoteCache.set RemoteCache.setWithTTL
      rw [if_pos httl]
      rfl
    refine ⟨hser, by rw [hset], ?_, ?_⟩
    · refine ⟨⟨[], some (now + c.ttl)⟩, ?_, rfl⟩
      rw [hset]
      exact alistLookup_insert_self _ _ _
    · apply remoteGet_empty_val deser c _ now key ⟨[], some (now + c.ttl)⟩ _ rfl
      rw [hset]
      exact alistLookup_insert_self _ _ _
  · have hset : (RemoteCache.set
        (fun v => some (@defaultSerialize F32 F64 C fmt32 fmt64 jm v))
        c st now key (.str [])) =
        (true, srvSet st now (c.makeKey key) [] none,
          [VCmd.setCmd (c.makeKey key) [] none]) := by
      unfold RemoteCache.set
      rw [if_neg httl]
      rfl
    refine ⟨hser, by rw [hset], ?_, ?_⟩
    · refine ⟨⟨[], none⟩, ?_, rfl⟩
      rw [hset]
      exact alistLookup_insert_self _ _ _
    · apply remoteGet_empty_val deser c _ now key ⟨[], none⟩ _ rfl
      rw [hset]
      exact alistLookup_insert_self _ _ _

/-- After a successful `GETEX ... EX ttl`, the key's entry carries the fresh
absolute expiration `now + ttl`. -/
theorem srvGetex_success (st : VState) (now : Nat) (k : String) (ttl : Nat)
    (v : List Char) (st1 : VState) (h : srvGetex st now k ttl = (some v, st1)) :
    alistLookup st1.kv k = some ⟨v, some (now + ttl)⟩ := by
  unfold srvGetex at h
  cases hx : alistLookup st.kv k with
  | none =>
    rw [hx] at h
    simp at h
  | some e =>
    rw [hx] at h
    by_cases hlive : e.live now = true
    · simp only [hlive, if_true] at h
      have hv : e.val = v := by
        have h1 := congrArg Prod.fst h
        simpa using h1
      have hst : st1 = { st with kv := alistInsert st.kv k ⟨e.val, some (now + ttl)⟩ } :=
        (congrArg Prod.snd h).symm
      rw [hst, hv]
      exact alistLookup_insert_self _ _ _
    · simp [hlive] at h

/-- After a successful `HGETEX ... EX ttl FIELDS 1 field`, that field carries
the fresh per-field expiration `now + ttl`. -/
theorem srvHgetex_success (st : VState) (now : Nat) (k f : String) (ttl : Nat)
    (v : List Char) (st1 : VState)
    (h : srvHgetex st now k f ttl = (some v, st1)) :
    ∃ fs, alistLookup st1.hv k = some fs ∧
      alistLookup fs f = some ⟨v, some (now + ttl)⟩ := by
  unfold srvHgetex at h
  cases hx : alistLookup st.hv k with
  | none =>
    rw [hx] at h
    simp at h
  | some fs =>
    rw [hx] at h
    cases hf : alistLookup fs f with
    | none =>
      simp only [hf] at h
      simp at h
    | some e =>
      by_cases hlive : e.live now = true
      · simp only [hf, hlive, if_true] at h
        have hv : e.val = v := by
          have h1 := congrArg Prod.fst h
          simpa using h1
        have hst : st1 =
            { st with
              hv := alistInsert st.hv k (alistInsert fs f ⟨e.val, some (now + ttl)⟩) } :=
          (congrArg Prod.snd h).symm
        refine ⟨alistInsert fs f ⟨v, some (now + ttl)⟩, ?_, ?_⟩
        · rw [hst, hv]
          exact alistLookup_insert_self _ _ _
        · exact alistLookup_insert_self _ _ _
      · simp [hf, hlive] at h

/-- With `applyTouch`, `Get` is the single command `GETEX ck EX ttl` and its
result and final state are those of that command. -/
theorem remoteGet_touch_eq {T : Type} (deser : List Char → Option T)
    (c : RemoteCache) (st : VState) (now : Nat) (key : String)
    (ht : c.applyTouch = true) :
    (RemoteCache.get deser c st now key).2.1 =
      (srvGetex st now (c.makeKey key) c.ttl).2 ∧
    (RemoteCache.get deser c st now key).2.2 =
      [VCmd.getex (c.makeKey key) c.ttl] ∧
    (∀ t, (RemoteCache.get deser c st now key).1 = some t →
      ∃ v, (srvGetex st now (c.makeKey key) c.ttl).1 = some v) := by
  unfold RemoteCache.get
  cases hg : srvGetex st now (c.makeKey key) c.ttl with
  | mk r1 st1 =>
    cases r1 with
    | none => simp [ht, hg]
    | some val =>
      by_cases hnil : val = []
      · simp [ht, hg, hnil]
      · cases hd : deser val with
        | none => simp [ht, hg, hnil, hd]
        | some t => simp [ht, hg, hnil, hd]

/-- With `applyTouch`, `HGet` is the single command
`HGETEX ck EX ttl FIELDS 1 field`. -/
theorem remoteHget_touch_eq {T : Type} (deser : List Char → Option T)
    (c : RemoteCache) (st : VState) (now : Nat) (key field : String)
    (ht : c.applyTouch = true) :
    (RemoteCache.hget deser c st now key field).2.1 =
      (srvHgetex st now (c.makeKey key) field c.ttl).2 ∧
    (RemoteCache.hget deser c st now key field).2.2 =
      [VCmd.hgetex (c.makeKey key) field c.ttl] ∧
    (∀ t, (RemoteCache.hget deser c st now key field).1 = some t →
      ∃ v, (srvHgetex st now (c.makeKey key) field c.ttl).1 = some v) := by
  unfold RemoteCache.hget
  cases hg : srvHgetex st now (c.makeKey key) field c.ttl with
  | mk r1 st1 =>
    cases r1 with
    | none => simp [ht, hg]
    | some val =>
      by_cases hnil : val = []
      · simp [ht, hg, hnil]
      · cases hd : deser val with
        | none => simp [ht, hg, hnil, hd]
        | some t => simp [ht, hg, hnil, hd]

/-- Claim C6 (confirmed): with `applyTouch=true`, every successful `Get`
(`HGet`) extends the entry's (field's) TTL to `defaultTTL` measured from the
moment of the read, and does so with the single atomic refresh command
`GETEX` (`HGETEX`) rather than separate get and expire steps; with
`applyTouch=false`, a read issues a plain `GET` (`HGET`) and leaves the
server state — in particular every remaining TTL — unchanged. -/
theorem C6_apply_touch_semantics {T : Type} (deser : List Char → Option T)
    (c : RemoteCache) (st : VState) (now : Nat) (key field : String) :
    (∀ t : T, c.applyTouch = true →
      (RemoteCache.get deser c st now key).1 = some t →
      (∃ v, alistLookup ((RemoteCache.get deser c st now key).2.1).kv
          (c.makeKey key) = some ⟨v, some (now + c.ttl)⟩) ∧
      (RemoteCache.get deser c st now key).2.2 =
        [VCmd.getex (c.makeKey key) c.ttl]) ∧
    (∀ t : T, c.applyTouch = true →
      (RemoteCache.hget deser c st now key field).1 = some t →
      (∃ fs v, alistLookup ((RemoteCache.hget deser c st now key field).2.1).hv
          (c.makeKey key) = some fs ∧
        alistLookup fs field = some ⟨v, some (now + c.ttl)⟩) ∧
      (RemoteCache.hget deser c st now key field).2.2 =
        [VCmd.hgetex (c.makeKey key) field c.ttl]) ∧
    (c.applyTouch = false →
      (RemoteCache.get deser c st now key).2.1 = st ∧
      (RemoteCache.get deser c st now key).2.2 = [VCmd.get (c.makeKey key)] ∧
      (RemoteCache.hget deser c st now key field).2.1 = st ∧
      (RemoteCache.hget deser c st now key field).2.2 =
        [VCmd.hget (c.makeKey key) field]) := by
  refine ⟨?_, ?_, ?_⟩
  · intro t ht hsucc
    obtain ⟨hst, htr, hv⟩ := remoteGet_touch_eq deser c st now key ht
    obtain ⟨v, hgx⟩ := hv t hsucc
    refine ⟨⟨v, ?_⟩, htr⟩
    rw [hst]
    exact srvGetex_success st now (c.makeKey key) c.ttl v _
      (Prod.ext hgx rfl)
  · intro t ht hsucc
    obtain ⟨hst, htr, hv⟩ := remoteHget_touch_eq deser c st now key field ht
    obtain ⟨v, hgx⟩ := hv t hsucc
    obtain ⟨fs, hfs, hfld⟩ := srvHgetex_success st now (c.makeKey key) field
      c.ttl v _ (Prod.ext hgx rfl)
    refine ⟨⟨fs, v, ?_, hfld⟩, htr⟩
    rw [hst]
    exact hfs
  · intro ht
    unfold RemoteCache.get RemoteCache.hget
    rw [ht]
    cases hg : srvGet st now (c.makeKey key) with
    | none =>
      cases hh : srvHget st now (c.makeKey key) field with
      | none => simp [hg, hh]
      | some val =>
        cases hd : deser val with
        | none => simp [hg, hh, hd]
        | some t => simp [hg, hh, hd]
    | some val =>
      by_cases hnil : val = []
      · cases hh : srvHget st now (c.makeKey key) field with
        | none => simp [hg, hh, hnil]
        | some val2 =>
          cases hd : deser val2 with
          | none => simp [hg, hh, hnil, hd]
          | some t => simp [hg, hh, hnil, hd]
      · cases hd : deser val with
        | none =>
          cases hh : srvHget st now (c.makeKey key) field with
          | none => simp [hg, hh, hnil, hd]
          | some val2 =>
            cases hd2 : deser val2 with
            | none => simp [hg, hh, hnil, hd, hd2]
            | some t => simp [hg, hh, hnil, hd, hd2]
        | some t =>
          cases hh : srvHget st now (c.makeKey key) field with
          | none => simp [hg, hh, hnil, hd]
          | some val2 =>
            cases hd2 : deser val2 with
            | none => simp [hg, hh, hnil, hd, hd2]
            | some t2 => simp [hg, hh, hnil, hd, hd2]

/-- Instance of `C6_apply_touch_semantics` at a concrete store: a touched
read of key `"s:k"` (value `"x"`, old expiry 100) at time 0 with default TTL
10 refreshes the expiry to 10 via one `GETEX`, and an untouched read leaves
the store untouched. -/
theorem C6_apply_touch_semantics_witness :
    (∃ v, alistLookup
        ((RemoteCache.get (fun l => some l) ⟨"s", 10, true⟩
            ⟨[("s:k", ⟨['x'], some 100⟩)], []⟩ 0 "k").2.1).kv "s:k" =
        some ⟨v, some 10⟩) ∧
    (RemoteCache.get (fun l => some l) ⟨"s", 10, false⟩
        ⟨[("s:k", ⟨['x'], some 100⟩)], []⟩ 0 "k").2.1 =
      ⟨[("s:k", ⟨['x'], some 100⟩)], []⟩ := by
  constructor
  · have h := (C6_apply_touch_semantics (fun l => some l) ⟨"s", 10, true⟩
      ⟨[("s:k", ⟨['x'], some 100⟩)], []⟩ 0 "k" "f").1 ['x'] rfl (by decide)
    exact h.1
  · exact ((C6_apply_touch_semantics (fun l => some l) ⟨"s", 10, false⟩
      ⟨[("s:k", ⟨['x'], some 100⟩)], []⟩ 0 "k" "f").2.2 rfl).1

/-- Deleting one key leaves the existence of every other key unchanged. -/
theorem hasKey_del_other (st : VState) (now : Nat) (k k2 : String)
    (h : ¬(k2 = k)) :
    VState.hasKey ⟨alistErase st.kv k, alistErase st.hv k⟩ now k2 =
      st.hasKey now k2 := by
  unfold VState.hasKey
  rw [alistLookup_erase_other st.kv k k2 h, alistLookup_erase_other st.hv k k2 h]

/-- The `DEL` reply on a duplicate-free key list is the number of listed keys
that existed. -/
theorem srvDel_count (now : Nat) :
    ∀ (ks : List String) (st : VState), ks.Nodup →
      (srvDel st now ks).1 =
        (ks.filter (fun k => st.hasKey now k)).length := by
  intro ks
  induction ks with
  | nil => intro st h; rfl
  | cons k rest ih =>
    intro st hnd
    rw [List.nodup_cons] at hnd
    simp only [srvDel]
    rw [ih ⟨alistErase st.kv k, alistErase st.hv k⟩ hnd.2]
    have hcong : rest.filter
        (fun k2 => VState.hasKey ⟨alistErase st.kv k, alistErase st.hv k⟩ now k2) =
        rest.filter (fun k2 => st.hasKey now k2) := by
      apply List.filter_congr
      intro a ha
      rw [hasKey_del_other st now k a (fun he => hnd.1 (he ▸ ha))]
    rw [hcong, List.filter_cons]
    by_cases hk : st.hasKey now k = true
    · simp only [hk, if_true, List.length_cons]
      omega
    · simp [hk]

/-- The local `Del` leaves the visibility of every other key unchanged. -/
theorem lrGetRaw_del_other {T : Type} (st : LState T) (now : Nat)
    (k k2 : String) (h : ¬(k2 = k)) :
    lrGetRaw (lrDel st k) now k2 = lrGetRaw st now k2 := by
  unfold lrGetRaw lrDel
  rw [alistLookup_erase_other st.applied k k2 h]

/-- The local `DeleteMulti` count on a duplicate-free key list is the number
of listed keys that were visible. -/
theorem localDeleteMulti_count {T : Type} (lc : LocalCache) (now : Nat) :
    ∀ (ks : List String) (st : LState T), ks.Nodup →
      (LocalCache.deleteMulti lc st now ks).1 =
        (ks.filter (fun k => (lrGetRaw st now k).isSome)).length := by
  intro ks
  induction ks with
  | nil => intro st h; rfl
  | cons k rest ih =>
    intro st hnd
    rw [List.nodup_cons] at hnd
    simp only [LocalCache.deleteMulti]
    rw [ih (lrDel st k) hnd.2]
    have hcong : rest.filter
        (fun k2 => (lrGetRaw (lrDel st k) now k2).isSome) =
        rest.filter (fun k2 => (lrGetRaw st now k2).isSome) := by
      apply List.filter_congr
      intro a ha
      rw [lrGetRaw_del_other st now k a (fun he => hnd.1 (he ▸ ha))]
    rw [hcong, List.filter_cons]
    by_cases hk : (lrGetRaw st now k).isSome = true
    · simp only [hk, if_true, List.length_cons]
      omega
    · simp [hk]

/-- Claim C5 (confirmed; the local `DeleteMulti` is modelled from the spec):
on both engines `DeleteMulti` with zero keys returns `0` with no error and
issues no backend call (the remote one returns before building a command),
and on a duplicate-free key list it returns exactly the number of listed
keys that existed, absent keys contributing `0`; the remote engine issues a
single multi-key `DEL` for the whole batch. -/
theorem C5_delete_multi {T : Type} (c : RemoteCache) (st : VState)
    (lc : LocalCache) (lst : LState T) (now : Nat) :
    (RemoteCache.deleteMulti c st now [] = (0, st, [])) ∧
    (∀ keys : List String, (keys.map c.makeKey).Nodup →
      (RemoteCache.deleteMulti c st now keys).1 =
        ((keys.map c.makeKey).filter (fun k => st.hasKey now k)).length) ∧
    (∀ keys : List String, ¬(keys = []) →
      (RemoteCache.deleteMulti c st now keys).2.2 =
        [VCmd.del (keys.map c.makeKey)]) ∧
    (LocalCache.deleteMulti lc lst now [] = (0, lst)) ∧
    (∀ keys : List String, keys.Nodup →
      (LocalCache.deleteMulti lc lst now keys).1 =
        (keys.filter (fun k => (lrGetRaw lst now k).isSome)).length) := by
  refine ⟨rfl, ?_, ?_, rfl, ?_⟩
  · intro keys hnd
    cases keys with
    | nil => rfl
    | cons k rest =>
      show (srvDel st now ((k :: rest).map c.makeKey)).1 = _
      exact srvDel_count now ((k :: rest).map c.makeKey) st hnd
  · intro keys hne
    cases keys with
    | nil => exact absurd rfl hne
    | cons k rest => rfl
  · intro keys hnd
    exact localDeleteMulti_count lc now keys lst hnd

/-- Instances of `C5_delete_multi` with its hypotheses discharged: with one
existing key (`a`) and one absent key (`b`), both engines report exactly one
deletion; empty batches report zero. -/
theorem C5_delete_multi_witness :
    (RemoteCache.deleteMulti ⟨"n", 0, false⟩ ⟨[("n:a", ⟨['x'], none⟩)], []⟩ 0
      ["a", "b"]).1 = 1 ∧
    (RemoteCache.deleteMulti ⟨"n", 0, false⟩ ⟨[("n:a", ⟨['x'], none⟩)], []⟩ 0
      [] = (0, ⟨[("n:a", ⟨['x'], none⟩)], []⟩, [])) ∧
    (LocalCache.deleteMulti (T := Unit) ⟨0⟩ ⟨[("a", ⟨.v (), none⟩)], []⟩ 0
      ["a", "b"]).1 = 1 := by
  have h := C5_delete_multi (T := Unit) ⟨"n", 0, false⟩
    ⟨[("n:a", ⟨['x'], none⟩)], []⟩ ⟨0⟩ ⟨[("a", ⟨.v (), none⟩)], []⟩ 0
  refine ⟨?_, h.1, ?_⟩
  · rw [h.2.1 ["a", "b"] (by decide)]
    decide
  · rw [h.2.2.2.2 ["a", "b"] (by decide)]
    decide

/-- Releasing a valkeylock key removes every copy of it from the held set. -/
theorem vlRelease_not_mem (ls : List String) (k : String) :
    ¬(k ∈ vlRelease ls k) := by
  intro h
  rw [vlRelease, List.mem_filter] at h
  simp at h

/-- After drain, an enqueued lock write is visible and alive (both with and
without a default TTL). -/
theorem lockMarker_visible_after_drain {T : Type} (st : LState T) (now : Nat)
    (k : String) (ttl : Nat) (hp : st.pending = []) :
    lrGetRaw (lrDrain (lrSet st now k .lockMarker ttl)) now k =
      some .lockMarker := by
  unfold lrGetRaw lrDrain lrSet lrApplyOp
  rw [hp]
  show (match alistLookup (alistInsert st.applied k _) k with
    | some e => if e.live now then some e.val else none
    | none => none) = _
  rw [alistLookup_insert_self]
  by_cases ht : ttl = 0
  · simp [ht, LEntry.live]
  · simp only [ht, if_false]
    have : (⟨LVal.lockMarker, some (now + ttl)⟩ : LEntry T).live now = true := by
      unfold LEntry.live
      simp
      omega
    rw [this]
    rfl

/-- Claim C7, as amended.  On the remote engine (the valkeylock contract):
of two competing `TryLockWithContext(k)` calls exactly one acquires; the
loser — and any further try while the key is held — gets the library's
"not locked" error, which the wrapper maps to `ErrNotLocked`; after the
holder's release a subsequent try acquires again.  On the local engine the
same holds only once the buffered lock write has become visible: a try
while the marker is visible returns `ErrNotLocked`, an acquire enqueues the
marker and is mutually exclusive after the buffer drains, and after the
holder's release (which deletes the key immediately) a subsequent try
acquires; but before the buffered write is applied, a second competing try
can also succeed (see the counterexample). -/
theorem C7_try_lock_exclusion {T : Type} (c : RemoteCache) (lc : LocalCache)
    (ls : List String) (st : LState T) (now : Nat) (key k : String) :
    (¬(c.makeKey key ∈ ls) →
      RemoteCache.tryLockWithContext c ls key = .acquired (c.makeKey key :: ls) ∧
      RemoteCache.tryLockWithContext c (c.makeKey key :: ls) key =
        .errNotLocked ∧
      RemoteCache.tryLockWithContext c
          (vlRelease (c.makeKey key :: ls) (c.makeKey key)) key =
        .acquired (c.makeKey key ::
          vlRelease (c.makeKey key :: ls) (c.makeKey key))) ∧
    (∀ v, lrGetRaw st now k = some v →
      LocalCache.tryLockWithContext lc st now k = .notLocked ∧
      LocalCache.lockWithContext lc st now k = .notLocked) ∧
    (lrGetRaw st now k = none → st.pending = [] →
      LocalCache.tryLockWithContext lc st now k =
        .acquired (lrSet st now k .lockMarker lc.ttl) ∧
      LocalCache.tryLockWithContext lc
          (lrDrain (lrSet st now k .lockMarker lc.ttl)) now k = .notLocked) ∧
    (∀ st1 : LState T,
      LocalCache.tryLockWithContext lc (LocalCache.releaseLock st1 k) now k =
        .acquired (lrSet (LocalCache.releaseLock st1 k) now k .lockMarker
          lc.ttl)) := by
  refine ⟨?_, ?_, ?_, ?_⟩
  · intro hfree
    refine ⟨?_, ?_, ?_⟩
    · unfold RemoteCache.tryLockWithContext vlTry
      rw [if_neg hfree]
    · unfold RemoteCache.tryLockWithContext vlTry
      rw [if_pos (List.mem_cons_self _ _)]
      rfl
    · unfold RemoteCache.tryLockWithContext vlTry
      rw [if_neg (vlRelease_not_mem _ _)]
  · intro v hv
    constructor
    · unfold LocalCache.tryLockWithContext LocalCache.lockWithContext
      rw [hv]
    · unfold LocalCache.lockWithContext
      rw [hv]
  · intro hnone hp
    constructor
    · unfold LocalCache.tryLockWithContext LocalCache.lockWithContext
      rw [hnone]
    · unfold LocalCache.tryLockWithContext LocalCache.lockWithContext
      rw [lockMarker_visible_after_drain st now k lc.ttl hp]
  · intro st1
    have h : lrGetRaw (LocalCache.releaseLock st1 k) now k = none := by
      unfold lrGetRaw LocalCache.releaseLock lrDel
      rw [alistLookup_erase_self]
    unfold LocalCache.tryLockWithContext LocalCache.lockWithContext
    rw [h]

/-- Instances of `C7_try_lock_exclusion` with its hypotheses discharged at
concrete inputs: on the remote contract model the second of two tries on a
free key gets `ErrNotLocked` and a try after release acquires; on the local
engine a try against a visible marker gets `ErrNotLocked` and a try after
release acquires. -/
theorem C7_try_lock_exclusion_witness :
    RemoteCache.tryLockWithContext ⟨"n", 5, false⟩ [] "job" =
      .acquired ["n:job"] ∧
    RemoteCache.tryLockWithContext ⟨"n", 5, false⟩ ["n:job"] "job" =
      .errNotLocked ∧
    RemoteCache.tryLockWithContext ⟨"n", 5, false⟩ (vlRelease ["n:job"] "n:job")
      "job" = .acquired ("n:job" :: vlRelease ["n:job"] "n:job") ∧
    LocalCache.tryLockWithContext (T := Unit) ⟨60⟩
      ⟨[("k", ⟨.lockMarker, none⟩)], []⟩ 0 "k" = .notLocked ∧
    LocalCache.tryLockWithContext (T := Unit) ⟨60⟩
        (LocalCache.releaseLock ⟨[("k", ⟨.lockMarker, none⟩)], []⟩ "k") 0 "k" =
      .acquired (lrSet (LocalCache.releaseLock
        ⟨[("k", ⟨.lockMarker, none⟩)], []⟩ "k") 0 "k" .lockMarker 60) := by
  have h := C7_try_lock_exclusion (T := Unit) ⟨"n", 5, false⟩ ⟨60⟩ []
    ⟨[("k", ⟨.lockMarker, none⟩)], []⟩ 0 "job" "k"
  have hr := h.1 (by decide)
  exact ⟨hr.1, hr.2.1, hr.2.2, (h.2.1 .lockMarker (by decide)).1,
    h.2.2.2 ⟨[("k", ⟨.lockMarker, none⟩)], []⟩⟩

/-- Claim C7, counterexample to the original statement: on the local engine
(whose lock is part of the claimed operation surface), two competing
`TryLockWithContext("k")` calls can both succeed — the first call's
`SetWithTTL` of the `"locked"` marker sits in Ristretto's admission buffer,
so the second call's presence check still misses and it acquires too;
neither call returns `ErrNotLocked`. -/
theorem C7_try_lock_exclusion_counterexample :
    LocalCache.tryLockWithContext (T := Unit) ⟨60⟩ ⟨[], []⟩ 0 "k" =
      .acquired ⟨[], [.setOp "k" ⟨.lockMarker, some 60⟩]⟩ ∧
    LocalCache.tryLockWithContext (T := Unit) ⟨60⟩
        ⟨[], [.setOp "k" ⟨.lockMarker, some 60⟩]⟩ 0 "k" =
      .acquired ⟨[], [.setOp "k" ⟨.lockMarker, some 60⟩,
        .setOp "k" ⟨.lockMarker, some 60⟩]⟩ ∧
    ¬(LocalCache.tryLockWithContext (T := Unit) ⟨60⟩
        ⟨[], [.setOp "k" ⟨.lockMarker, some 60⟩]⟩ 0 "k" = .notLocked) := by
  refine ⟨by decide, by decide, by decide⟩

/-- Claim C10 (confirmed): the local engine keeps lock markers and ordinary
values in one shared, unprefixed keyspace.  At any key holding a visible,
live entry — for example after an admitted (drained) `Set(k, v)` — both
`LockWithContext` and `TryLockWithContext` return `ErrNotLocked` even though
no lock was ever taken; and releasing a lock on `k` deletes whatever entry
is stored at `k`. -/
theorem C10_local_lock_keyspace_collision {T : Type} (c : LocalCache)
    (st : LState T) (now : Nat) (k : String) :
    (∀ e : LEntry T, alistLookup st.applied k = some e → e.live now = true →
      LocalCache.lockWithContext c st now k = .notLocked ∧
      LocalCache.tryLockWithContext c st now k = .notLocked) ∧
    (∀ x : T, st.pending = [] →
      LocalCache.tryLockWithContext c
        (lrDrain (LocalCache.set c st now k x)) now k = .notLocked) ∧
    (alistLookup (LocalCache.releaseLock st k).applied k = none ∧
      LocalCache.get c (LocalCache.releaseLock st k) now k = none) := by
  refine ⟨?_, ?_, ?_⟩
  · intro e he hlive
    have h : lrGetRaw st now k = some e.val := by
      unfold lrGetRaw
      rw [he]
      simp only [hlive, if_true]
    constructor
    · unfold LocalCache.lockWithContext
      rw [h]
    · unfold LocalCache.tryLockWithContext LocalCache.lockWithContext
      rw [h]
  · intro x hp
    have h : lrGetRaw (lrDrain (LocalCache.set c st now k x)) now k =
        some (.v x) := by
      unfold LocalCache.set LocalCache.setWithTTL
      by_cases httl : c.ttl > 0
      · rw [if_pos httl]
        unfold lrGetRaw lrDrain lrSet lrApplyOp
        rw [hp]
        show (match alistLookup (alistInsert st.applied k _) k with
          | some e => if e.live now then some e.val else none
          | none => none) = _
        rw [alistLookup_insert_self]
        have hne : ¬(c.ttl = 0) := by omega
        simp only [hne, if_false]
        have : (⟨LVal.v x, some (now + c.ttl)⟩ : LEntry T).live now = true := by
          unfold LEntry.live
          simp
          omega
        rw [this]
        rfl
      · rw [if_neg httl]
        unfold lrGetRaw lrDrain lrSet lrApplyOp
        rw [hp]
        show (match alistLookup (alistInsert st.applied k _) k with
          | some e => if e.live now then some e.val else none
          | none => none) = _
        rw [alistLookup_insert_self]
        simp [LEntry.live]
    unfold LocalCache.tryLockWithContext LocalCache.lockWithContext
    rw [h]
  · have h : lrGetRaw (LocalCache.releaseLock st k) now k = none := by
      unfold lrGetRaw LocalCache.releaseLock lrDel
      rw [alistLookup_erase_self]
    refine ⟨?_, ?_⟩
    · unfold LocalCache.releaseLock lrDel
      exact alistLookup_erase_self _ _
    · unfold LocalCache.get
      rw [h]

/-- Instances of `C10_local_lock_keyspace_collision` with its hypotheses
discharged: with the plain value `"v"`-like entry stored at `"k"`, both lock
operations return `ErrNotLocked`, and the release of a lock on `"k"` erases
the stored entry. -/
theorem C10_local_lock_keyspace_collision_witness :
    LocalCache.lockWithContext (T := Unit) ⟨0⟩
      ⟨[("k", ⟨.v (), none⟩)], []⟩ 0 "k" = .notLocked ∧
    LocalCache.tryLockWithContext (T := Unit) ⟨0⟩
      ⟨[("k", ⟨.v (), none⟩)], []⟩ 0 "k" = .notLocked ∧
    LocalCache.tryLockWithContext (T := Unit) ⟨0⟩
      (lrDrain (LocalCache.set ⟨0⟩ ⟨[], []⟩ 0 "k" ())) 0 "k" = .notLocked ∧
    LocalCache.get (T := Unit) ⟨0⟩
      (LocalCache.releaseLock ⟨[("k", ⟨.v (), none⟩)], []⟩ "k") 0 "k" = none := by
  have h1 := C10_local_lock_keyspace_collision (T := Unit) ⟨0⟩
    ⟨[("k", ⟨.v (), none⟩)], []⟩ 0 "k"
  have h2 := C10_local_lock_keyspace_collision (T := Unit) ⟨0⟩ ⟨[], []⟩ 0 "k"
  have he := h1.1 ⟨.v (), none⟩ (by decide) (by decide)
  exact ⟨he.1, he.2, h2.2.1 () rfl, h1.2.2.2⟩

end SvcExtnCache
